import Mathlib

/-!
Verification development for the cloudkv Cloudflare worker
(cf-worker/src/index.ts).  The worker coordinates a relational catalog
(D1: tables namespaces and kv) and a blob store (Cloudflare KV) behind
an HTTP surface with operations get/head, set, delete, list and create.

The definitions below are a shallow embedding of the worker: timestamps
are naturals (seconds), request bodies are byte lists, the two backing
stores are association lists inside an explicit state record, and the
SQL statements are translated into list filters and folds following the
statement text in index.ts and the schema in schema.sql.
-/

namespace CloudKV

/-! ## Constants (index.ts) -/

/-- 1 MB, from index.ts. -/
def MB : Nat := 1024 * 1024

/-- Maximum number of namespaces creatable in 24 hours globally. -/
def MAX_GLOBAL_24 : Nat := 1000

/-- Maximum number of namespaces creatable in 24 hours per IP. -/
def MAX_IP_24 : Nat := 20

/-- Maximum total size of a namespace in bytes (200 MB). -/
def MAX_NAMESPACE_SIZE : Nat := 200 * MB

/-- Maximum size of a value in bytes (25 MB). -/
def MAX_VALUE_SIZE : Nat := 25 * MB

/-- Minimum TTL for a key in seconds. -/
def MIN_TTL : Nat := 60

/-- Maximum TTL for a key in seconds (10 years). -/
def MAX_TTL : Nat := 60 * 60 * 24 * 365 * 10

/-- Maximum key length. -/
def MAX_KEY_SIZE : Nat := 2048

/-! ## Token comparison -/

/-- compareSecrets from index.ts: length check, then a loop over all
character positions that keeps an isEqual flag and never exits early.
With equal lengths the loop compares the two strings position by
position, which is the pairwise comparison over the zip. -/
def compareSecrets (s1 s2 : String) : Bool :=
  if s1.length != s2.length then false
  else (s1.data.zip s2.data).foldl (fun isEqual p => isEqual && (p.1 == p.2)) true

/-! ## Data model -/

/-- A row of the namespaces table (schema.sql plus the write_token /
read_token columns used by index.ts). -/
structure NamespaceRow where
  read_token : String
  write_token : String
  ip : String
  created_at : Nat
deriving DecidableEq, Repr

/-- A row of the kv table: namespace reference, key, optional content
type, size in bytes, creation and expiration timestamps. -/
structure KvRow where
  namespace_ref : String
  key : String
  content_type : Option String
  size : Nat
  created_at : Nat
  expiration : Nat
deriving DecidableEq, Repr

/-- A record in the blob store (Cloudflare KV): the raw bytes, the
content_type metadata attached by put, and the absolute time at which
the record's own expirationTtl makes it vanish. -/
structure BlobRec where
  value : List Nat
  content_type : Option String
  expiry : Nat
deriving DecidableEq, Repr

/-- The combined state of the two backing stores, plus the current time
in seconds (the worker reads time only through the SQL datetime
function and the KV expirationTtl clock). -/
structure State where
  namespaces : List NamespaceRow
  kv : List KvRow
  blobs : List (String × BlobRec)
  now : Nat
deriving DecidableEq, Repr

/-- dataKey from index.ts. -/
def dataKey (ns key : String) : String := "data:" ++ ns ++ ":" ++ key

/-- Raw blob-store lookup, ignoring TTL (used to state what is
physically stored). -/
def blobFind (st : State) (id : String) : Option BlobRec :=
  (st.blobs.find? (fun p => p.1 == id)).map (fun p => p.2)

/-- Blob-store read as the worker observes it: a record whose TTL has
passed is gone. -/
def blobGet (st : State) (id : String) : Option BlobRec :=
  match blobFind st id with
  | some b => if st.now < b.expiry then some b else none
  | none => none

/-- Blob-store put: replaces any record under the same id. -/
def blobPut (st : State) (id : String) (b : BlobRec) : State :=
  { st with blobs := (id, b) :: st.blobs.filter (fun p => p.1 != id) }

/-- Blob-store delete. -/
def blobDelete (st : State) (id : String) : State :=
  { st with blobs := st.blobs.filter (fun p => p.1 != id) }

/-- The SQL select of write_token from namespaces by read_token. -/
def lookupWriteToken (st : State) (read_token : String) : Option String :=
  (st.namespaces.find? (fun n => n.read_token == read_token)).map
    (fun n => n.write_token)

/-- The SQL existence check select 1 from namespaces where
read_token=?. -/
def namespaceExists (st : State) (read_token : String) : Bool :=
  st.namespaces.any (fun n => n.read_token == read_token)

/-- Whether the kv table has a row for this namespace and key. -/
def rowExists (st : State) (read_token key : String) : Bool :=
  st.kv.any (fun r => r.namespace_ref == read_token && r.key == key)

/-! ## Set -/

/-- TTL resolution in set: default MAX_TTL when no ttl header is
supplied, otherwise the supplied integer clamped by
Math.max(MIN_TTL, Math.min(ttl, MAX_TTL)). -/
def resolveTtl (ttlHeader : Option Int) : Nat :=
  match ttlHeader with
  | none => MAX_TTL
  | some t => (max (MIN_TTL : Int) (min t (MAX_TTL : Int))).toNat

/-- The aggregate subquery in set: coalesce(sum(size), 0) over kv rows
of the namespace whose key differs from the key being written and whose
expiration is strictly in the future. -/
def liveSize (st : State) (read_token key : String) : Nat :=
  ((st.kv.filter (fun r =>
      r.namespace_ref == read_token && r.key != key
        && decide (st.now < r.expiration))).map (fun r => r.size)).sum

/-- Sum of size over all non-expired kv rows of a namespace (no key
exclusion); the quantity the namespace quota bounds. -/
def liveSizeTotal (st : State) (read_token : String) : Nat :=
  ((st.kv.filter (fun r =>
      r.namespace_ref == read_token
        && decide (st.now < r.expiration))).map (fun r => r.size)).sum

inductive SetOutcome where
  | authMissing
  | keyTooLong
  | emptyBody
  | valueTooLarge
  | namespaceNotFound
  | authMismatch
  | quotaExceeded
  | ok (key : String) (content_type : Option String) (size : Nat)
      (created_at : Nat) (expiration : Nat)
deriving DecidableEq, Repr

/-- The state transition of an accepted set: the kv upsert (insert, or
on conflict update content_type/size/created_at/expiration — with the
unique (namespace, key) constraint this replaces the row for that key),
the blob put under dataKey with expirationTtl ttl + 5 and content_type
metadata, and the deferred ctx.waitUntil cleanup deleting rows of the
namespace with expiration < now. -/
def setAccepted (st : State) (readToken key : String)
    (content_type : Option String) (ttlHeader : Option Int)
    (body : List Nat) : State :=
  let ttl := resolveTtl ttlHeader
  let row : KvRow :=
    { namespace_ref := readToken, key := key, content_type := content_type,
      size := body.length, created_at := st.now, expiration := st.now + ttl }
  let st1 :=
    { st with kv := row :: st.kv.filter (fun r =>
        !(r.namespace_ref == readToken && r.key == key)) }
  let st2 := blobPut st1 (dataKey readToken key)
    { value := body, content_type := content_type, expiry := st.now + ttl + 5 }
  { st2 with kv := st2.kv.filter (fun r =>
      !(r.namespace_ref == readToken && decide (r.expiration < st.now))) }

/-- set from index.ts: auth header required, key length bound, TTL
resolution, non-empty body bound by MAX_VALUE_SIZE, namespace lookup,
constant-time write-token check, quota check against liveSize, then the
dual-store write of setAccepted. -/
def set (st : State) (readToken key : String) (auth : Option String)
    (content_type : Option String) (ttlHeader : Option Int)
    (body : List Nat) : SetOutcome × State :=
  match auth with
  | none => (.authMissing, st)
  | some a =>
    if key.length > MAX_KEY_SIZE then (.keyTooLong, st)
    else if body.length = 0 then (.emptyBody, st)
    else if body.length > MAX_VALUE_SIZE then (.valueTooLarge, st)
    else
      match lookupWriteToken st readToken with
      | none => (.namespaceNotFound, st)
      | some writeKey =>
        if !compareSecrets a writeKey then (.authMismatch, st)
        else if liveSize st readToken key + body.length > MAX_NAMESPACE_SIZE
        then (.quotaExceeded, st)
        else
          (.ok key content_type body.length st.now
            (st.now + resolveTtl ttlHeader),
           setAccepted st readToken key content_type ttlHeader body)

/-! ## Get / Head -/

inductive GetResult where
  | ok (value : List Nat) (content_type : Option String)
  | keyNotFound
  | namespaceNotFound
deriving DecidableEq, Repr

/-- Status codes of the get responses in index.ts. -/
def getStatus : GetResult → Nat
  | .ok _ _ => 200
  | .keyNotFound => 244
  | .namespaceNotFound => 404

/-- get from index.ts: single blob-store fetch of value and metadata;
only on a miss, the auxiliary namespaces existence check decides
between 244 (key does not exist) and 404 (namespace does not exist).
The kv catalog is never consulted on this path. -/
def get (st : State) (readToken key : String) : GetResult :=
  match blobGet st (dataKey readToken key) with
  | some b => .ok b.value b.content_type
  | none =>
    if namespaceExists st readToken then .keyNotFound
    else .namespaceNotFound

/-- The same state observed at a (later) time t. -/
def atTime (st : State) (t : Nat) : State := { st with now := t }

/-! ## Delete -/

inductive DelOutcome where
  | authMissing
  | namespaceNotFound
  | authMismatch
  | keyDeleted
  | keyNotFound
deriving DecidableEq, Repr

/-- Status codes of the delete responses in index.ts. -/
def delStatus : DelOutcome → Nat
  | .authMissing => 401
  | .namespaceNotFound => 404
  | .authMismatch => 403
  | .keyDeleted => 200
  | .keyNotFound => 244

/-- Store mutations issued by del, in order. -/
inductive StoreOp where
  | blobStoreDelete (id : String)
  | catalogRowDelete (namespace_ref key : String)
deriving DecidableEq, Repr

/-- del from index.ts: auth header, namespace lookup (404 before the
token is ever compared), constant-time token check, then the blob
delete followed by the catalog delete-returning; 200 when a row was
removed, 244 otherwise.  The third component is the ordered trace of
store mutations issued. -/
def del (st : State) (readToken key : String) (auth : Option String) :
    DelOutcome × State × List StoreOp :=
  match auth with
  | none => (.authMissing, st, [])
  | some a =>
    match lookupWriteToken st readToken with
    | none => (.namespaceNotFound, st, [])
    | some writeKey =>
      if !compareSecrets a writeKey then (.authMismatch, st, [])
      else
        let st1 := blobDelete st (dataKey readToken key)
        let existed := rowExists st readToken key
        let st2 :=
          { st1 with kv := st1.kv.filter (fun r =>
              !(r.namespace_ref == readToken && r.key == key)) }
        ((if existed then .keyDeleted else .keyNotFound), st2,
         [StoreOp.blobStoreDelete (dataKey readToken key),
          StoreOp.catalogRowDelete readToken key])

/-! ## Create and rate limiting -/

/-- 24 hours in seconds (datetime now minus 24 hours). -/
def HOURS24 : Nat := 24 * 60 * 60

/-- Namespaces with created_at within the trailing 24 hours: the SQL
filter created_at > now - 24h, written additively over naturals. -/
def recentNamespaces (st : State) : List NamespaceRow :=
  st.namespaces.filter (fun n => decide (st.now < n.created_at + HOURS24))

/-- count(*) of the rate-limit query in create. -/
def globalCount (st : State) : Nat := (recentNamespaces st).length

/-- count(case when ip = ? then 1 end) of the rate-limit query. -/
def ipCount (st : State) (ip : String) : Nat :=
  ((recentNamespaces st).filter (fun n => n.ip == ip)).length

inductive CreateOutcome where
  | rateLimitedGlobal
  | rateLimitedIp
  | accepted
deriving DecidableEq, Repr

/-- The rate-limit decision of create in index.ts: reject when the
global count strictly exceeds MAX_GLOBAL_24, else when the per-IP count
strictly exceeds MAX_IP_24, else proceed to insert a fresh namespace. -/
def create (st : State) (ip : String) : CreateOutcome :=
  if globalCount st > MAX_GLOBAL_24 then .rateLimitedGlobal
  else if ipCount st ip > MAX_IP_24 then .rateLimitedIp
  else .accepted

/-! ## List -/

/-- Whether a predicate holds of some suffix of the text (used for the
percent wildcard, which consumes any run of characters). -/
def suffixAny (f : List Char → Bool) : List Char → Bool
  | [] => f []
  | c :: ts => f (c :: ts) || suffixAny f ts

/-- SQL LIKE matching over the two documented wildcards: percent
matches any run of characters (match continues from some suffix of the
text) and underscore exactly one character; any other pattern character
matches itself. -/
def likeMatch : List Char → List Char → Bool
  | [], t => t.isEmpty
  | c :: ps, t =>
    if c = '%' then suffixAny (likeMatch ps) t
    else
      match t with
      | [] => false
      | d :: ts =>
        if c = '_' then likeMatch ps ts
        else (c == d) && likeMatch ps ts

/-- A pattern fragment with no wildcard characters. -/
def noWild (s : List Char) : Bool :=
  s.all (fun c => !(c == '%') && !(c == '_'))

/-- The where clause of the list query: rows of the namespace whose
expiration is strictly in the future, and, when a like parameter is
present, whose key matches it. -/
def rowsLive (st : State) (readToken : String) (like : Option String) :
    List KvRow :=
  st.kv.filter (fun r =>
    r.namespace_ref == readToken && decide (st.now < r.expiration)
      && (match like with
          | none => true
          | some p => likeMatch p.data r.key.data))

instance : DecidableRel (fun a b : KvRow => a.created_at ≤ b.created_at) :=
  fun a b => Nat.decLe a.created_at b.created_at

instance : IsTotal KvRow (fun a b => a.created_at ≤ b.created_at) :=
  ⟨fun a b => Nat.le_total a.created_at b.created_at⟩

instance : IsTrans KvRow (fun a b => a.created_at ≤ b.created_at) :=
  ⟨fun _ _ _ hab hbc => le_trans hab hbc⟩

/-- order by created_at of the list query. -/
def orderByCreated (l : List KvRow) : List KvRow :=
  l.insertionSort (fun a b => a.created_at ≤ b.created_at)

/-- The rows the list query returns: filtered, ordered by created_at,
offset applied, page capped at 1000 rows (limit 1000 offset ?). -/
def listRows (st : State) (readToken : String) (like : Option String)
    (offset : Nat) : List KvRow :=
  ((orderByCreated (rowsLive st readToken like)).drop offset).take 1000

/-- list from index.ts: 404 when the namespace does not exist,
otherwise the page of rows. -/
def list (st : State) (readToken : String) (like : Option String)
    (offset : Nat) : Option (List KvRow) :=
  if namespaceExists st readToken then
    some (listRows st readToken like offset)
  else none

/-- The full behaviour of the listing engine on an existing namespace
with a like pattern: the handler returns the page; the page holds at
most 1000 rows, is ordered by created_at ascending, and contains only
non-expired, matching rows of the namespace; with no offset and no
truncation it holds exactly the live matching rows of the catalog; a
pattern matched by no key yields the empty page; and a pattern of the
form percent-substr-percent (substr wildcard-free) matches exactly the
keys containing substr. -/
def ListSpec (st : State) (rt p : String) (off : Nat) : Prop :=
  list st rt (some p) off = some (listRows st rt (some p) off) ∧
  (listRows st rt (some p) off).length ≤ 1000 ∧
  (listRows st rt (some p) off).Pairwise
    (fun a b => a.created_at ≤ b.created_at) ∧
  (∀ r ∈ listRows st rt (some p) off,
     r.namespace_ref = rt ∧ st.now < r.expiration ∧
       likeMatch p.data r.key.data = true) ∧
  ((rowsLive st rt (some p)).length ≤ 1000 →
     ∀ r, r ∈ listRows st rt (some p) 0 ↔
       (r ∈ st.kv ∧ r.namespace_ref = rt ∧ st.now < r.expiration ∧
         likeMatch p.data r.key.data = true)) ∧
  ((∀ r ∈ st.kv, likeMatch p.data r.key.data = false) →
     listRows st rt (some p) off = []) ∧
  (∀ s t : List Char, noWild s = true →
     (likeMatch ('%' :: (s ++ ['%'])) t = true ↔ ∃ u v, u ++ (s ++ v) = t))

/-! ## Write-phase scheduling of set -/

/-- The store events of the write phase of an accepted set. -/
inductive SetStoreEvent where
  | catalogUpsertStarted
  | catalogUpsertCompleted
  | blobPutStarted
  | blobPutCompleted
  | cleanupScheduled
deriving DecidableEq, Repr

/-- The write phase of set runs Promise.all over the catalog upsert and
the blob put.  JavaScript evaluates the array elements left to right,
so both operations are started (their promises created and the requests
issued) before either is awaited; the two completions may then land in
either order; only after both complete does ctx.waitUntil schedule the
expired-row cleanup.  These are therefore the event orders the code can
produce. -/
def setWriteSchedules : List (List SetStoreEvent) :=
  [[.catalogUpsertStarted, .blobPutStarted, .catalogUpsertCompleted,
    .blobPutCompleted, .cleanupScheduled],
   [.catalogUpsertStarted, .blobPutStarted, .blobPutCompleted,
    .catalogUpsertCompleted, .cleanupScheduled]]

/-- Position of an event in a schedule. -/
def eventPos (l : List SetStoreEvent) (e : SetStoreEvent) : Nat :=
  l.findIdx (fun x => x == e)

/-- A schedule in which the two completions land catalog-first. -/
def schedCatalogFirst : List SetStoreEvent :=
  [.catalogUpsertStarted, .blobPutStarted, .catalogUpsertCompleted,
   .blobPutCompleted, .cleanupScheduled]

/-! ## Concrete states for witnesses -/

/-- A concrete namespace row used in witnesses. -/
def nsR : NamespaceRow :=
  { read_token := "r", write_token := "w", ip := "i", created_at := 0 }

/-- A concrete kv row used in witnesses. -/
def rowK : KvRow :=
  { namespace_ref := "r", key := "k", content_type := none, size := 3,
    created_at := 0, expiration := 100 }

/-- A concrete blob record used in witnesses. -/
def blobK : BlobRec := { value := [7], content_type := none, expiry := 100 }

/-- A state whose kv catalog has a row for the key while the blob store
is empty, and whose namespace exists. -/
def stRowNoBlob : State :=
  { namespaces := [nsR], kv := [rowK], blobs := [], now := 0 }

/-- A state with one namespace and one stored key. -/
def stOneKey : State :=
  { namespaces := [nsR], kv := [rowK],
    blobs := [(dataKey "r" "k", blobK)], now := 0 }

/-- A state with one empty namespace. -/
def stNs : State :=
  { namespaces := [nsR], kv := [], blobs := [], now := 0 }

/-- A namespace row created at time 1 from a fixed origin. -/
def mkRecentNs (i : Nat) : NamespaceRow :=
  { read_token := toString i, write_token := "w", ip := "203.0.113.7",
    created_at := 1 }

/-- A state holding exactly 20 namespaces created from one origin
within the trailing 24 hours. -/
def st20 : State :=
  { namespaces := (List.range 20).map mkRecentNs, kv := [], blobs := [],
    now := 1000 }

/-- A live row whose key contains the fragment bc. -/
def rowAbc : KvRow :=
  { namespace_ref := "r", key := "abcd", content_type := none, size := 1,
    created_at := 5, expiration := 100 }

/-- A live row whose key does not contain bc. -/
def rowX : KvRow :=
  { namespace_ref := "r", key := "xyz", content_type := none, size := 1,
    created_at := 3, expiration := 100 }

/-- An expired row whose key contains bc. -/
def rowExp : KvRow :=
  { namespace_ref := "r", key := "wbcw", content_type := none, size := 1,
    created_at := 1, expiration := 2 }

/-- A state with one namespace and three catalog rows, one expired. -/
def stList : State :=
  { namespaces := [nsR], kv := [rowAbc, rowX, rowExp], blobs := [], now := 10 }

/-- The catalog row an accepted set stores (the values bound in the
upsert statement, with created_at and expiration as returned by the
SQL datetime expressions). -/
def newRow (st : State) (rt key : String) (ct : Option String)
    (ttlh : Option Int) (body : List Nat) : KvRow :=
  { namespace_ref := rt, key := key, content_type := ct,
    size := body.length, created_at := st.now,
    expiration := st.now + resolveTtl ttlh }

/-! ## Theorems -/

lemma foldl_and_eq (l : List (Char × Char)) (b : Bool) :
    l.foldl (fun isEqual p => isEqual && (p.1 == p.2)) b
      = (b && l.all (fun p => p.1 == p.2)) := by
  induction l generalizing b with
  | nil => simp
  | cons x xs ih => simp [List.foldl_cons, List.all_cons, ih, Bool.and_assoc]

lemma zip_all_eq (l1 l2 : List Char) (h : l1.length = l2.length) :
    ((l1.zip l2).all (fun p => p.1 == p.2) = true) ↔ l1 = l2 := by
  induction l1 generalizing l2 with
  | nil =>
    cases l2 with
    | nil => simp
    | cons b l2 => simp at h
  | cons a l1 ih =>
    cases l2 with
    | nil => simp at h
    | cons b l2 =>
      simp only [List.length_cons, Nat.succ.injEq] at h
      simp [List.zip_cons_cons, List.all_cons, ih l2 h, Bool.and_eq_true,
        beq_iff_eq, List.cons.injEq]

/-- C9: token verification returns true exactly on equal-length,
byte-for-byte identical strings: any differing byte at any position, or
any length difference, yields false. -/
theorem compareSecrets_true_iff (s1 s2 : String) :
    compareSecrets s1 s2 = true ↔ s1 = s2 := by
  unfold compareSecrets
  by_cases h : s1.length = s2.length
  · have hb : (s1.length != s2.length) = false := by
      simp [bne, h]
    rw [hb, if_neg (by simp)]
    rw [foldl_and_eq, Bool.true_and]
    have hd : s1.data.length = s2.data.length := h
    rw [zip_all_eq s1.data s2.data hd]
    constructor
    · intro hdata
      exact String.ext hdata
    · intro hs
      rw [hs]
  · have hb : (s1.length != s2.length) = true := by
      simp [bne, h]
    rw [hb, if_pos rfl]
    constructor
    · intro hfalse
      exact absurd hfalse (by simp)
    · intro hs
      exact absurd (congrArg String.length hs) h

/-- C1 counterexample: even in the schedule whose completions land
catalog-first, the blob put is started before the catalog upsert
completes, so the blob write does not wait for the catalog upsert to be
durable. -/
theorem set_blobPut_starts_before_upsert_completes :
    schedCatalogFirst ∈ setWriteSchedules ∧
      eventPos schedCatalogFirst .blobPutStarted
        < eventPos schedCatalogFirst .catalogUpsertCompleted ∧
      ¬ eventPos schedCatalogFirst .catalogUpsertCompleted
          < eventPos schedCatalogFirst .blobPutStarted := by
  decide

/-- C1 (amended): in every schedule the set write phase can produce,
the catalog upsert and the blob put are both started before either
completes (they are issued concurrently, the catalog upsert started
first in program order), and the deferred cleanup is scheduled only
after both writes complete. -/
theorem setWriteSchedule_concurrent (l : List SetStoreEvent)
    (h : l ∈ setWriteSchedules) :
    eventPos l .catalogUpsertStarted < eventPos l .blobPutStarted ∧
    eventPos l .blobPutStarted < eventPos l .catalogUpsertCompleted ∧
    eventPos l .blobPutStarted < eventPos l .blobPutCompleted ∧
    eventPos l .catalogUpsertCompleted < eventPos l .cleanupScheduled ∧
    eventPos l .blobPutCompleted < eventPos l .cleanupScheduled := by
  simp only [setWriteSchedules, List.mem_cons, List.mem_singleton,
    List.not_mem_nil, or_false] at h
  rcases h with h | h <;> subst h <;> decide

/-- C1 witness: the amended statement holds at a concrete schedule. -/
theorem setWriteSchedule_concurrent_witness :
    eventPos schedCatalogFirst .catalogUpsertStarted
        < eventPos schedCatalogFirst .blobPutStarted ∧
    eventPos schedCatalogFirst .blobPutStarted
        < eventPos schedCatalogFirst .catalogUpsertCompleted ∧
    eventPos schedCatalogFirst .blobPutStarted
        < eventPos schedCatalogFirst .blobPutCompleted ∧
    eventPos schedCatalogFirst .catalogUpsertCompleted
        < eventPos schedCatalogFirst .cleanupScheduled ∧
    eventPos schedCatalogFirst .blobPutCompleted
        < eventPos schedCatalogFirst .cleanupScheduled :=
  setWriteSchedule_concurrent schedCatalogFirst (by decide)

/-- C4 counterexample: with exactly 20 prior creations from one origin
inside the trailing 24 hours (so this request is the 21st creation from
that origin within 24 hours), create is admitted, not rejected. -/
theorem create_21st_from_origin_accepted :
    ipCount st20 "203.0.113.7" = 20 ∧ globalCount st20 = 20 ∧
      create st20 "203.0.113.7" = .accepted := by
  decide

/-- C4 (amended): creation is rejected exactly when the count of
already-existing namespaces created in the trailing 24 hours exceeds
1000 globally, or does not exceed 1000 globally but exceeds 20 for the
requesting origin; hence the 22nd creation from one origin within 24
hours is the first rejected (the 21st is admitted), and the 1002nd
global creation is the first rejected (the 1001st is admitted). -/
theorem create_rate_characterisation (st : State) (ip : String) :
    (create st ip = .accepted ↔
      globalCount st ≤ MAX_GLOBAL_24 ∧ ipCount st ip ≤ MAX_IP_24) ∧
    (create st ip = .rateLimitedGlobal ↔ MAX_GLOBAL_24 < globalCount st) ∧
    (create st ip = .rateLimitedIp ↔
      globalCount st ≤ MAX_GLOBAL_24 ∧ MAX_IP_24 < ipCount st ip) := by
  unfold create
  by_cases h1 : globalCount st > MAX_GLOBAL_24 <;>
    by_cases h2 : ipCount st ip > MAX_IP_24 <;>
      simp [h1, h2] <;> omega

/-- C2: when the blob record cannot be produced, get never reports
success — whatever the kv catalog contains — and the auxiliary
namespaces existence check decides between key-absent and
namespace-absent. -/
theorem get_missing_blob (st : State) (rt k : String)
    (h : blobGet st (dataKey rt k) = none) :
    (∀ v ct, get st rt k ≠ .ok v ct) ∧
    (namespaceExists st rt = true → get st rt k = .keyNotFound) ∧
    (namespaceExists st rt = false → get st rt k = .namespaceNotFound) ∧
    getStatus .keyNotFound ≠ getStatus .namespaceNotFound := by
  unfold get
  rw [h]
  by_cases hns : namespaceExists st rt <;> simp [hns, getStatus]

/-- C2 witness: a catalog row is present, the blob is missing, and get
reports key-not-found, never success. -/
theorem get_missing_blob_witness :
    blobGet stRowNoBlob (dataKey "r" "k") = none ∧
    ((∀ v ct, get stRowNoBlob "r" "k" ≠ .ok v ct) ∧
     (namespaceExists stRowNoBlob "r" = true →
        get stRowNoBlob "r" "k" = .keyNotFound) ∧
     (namespaceExists stRowNoBlob "r" = false →
        get stRowNoBlob "r" "k" = .namespaceNotFound) ∧
     getStatus .keyNotFound ≠ getStatus .namespaceNotFound) :=
  ⟨by decide, get_missing_blob stRowNoBlob "r" "k" (by decide)⟩

/-- C6: delete returns namespace-absent from the existence check before
the write token is ever compared (for every supplied credential); once
authorized it issues the blob delete strictly before the catalog row
delete; the outcome is key-not-found exactly when the catalog held no
row, key-deleted when it did; and the three outcomes carry pairwise
distinct status signals. -/
theorem del_behaviour (st : State) (rt key a : String) :
    (lookupWriteToken st rt = none →
       del st rt key (some a) = (.namespaceNotFound, st, [])) ∧
    (∀ w, lookupWriteToken st rt = some w → compareSecrets a w = true →
       ((del st rt key (some a)).2.2 =
          [StoreOp.blobStoreDelete (dataKey rt key),
           StoreOp.catalogRowDelete rt key] ∧
        (rowExists st rt key = false →
           (del st rt key (some a)).1 = .keyNotFound) ∧
        (rowExists st rt key = true →
           (del st rt key (some a)).1 = .keyDeleted))) ∧
    (delStatus .namespaceNotFound = 404 ∧ delStatus .keyNotFound = 244 ∧
     delStatus .keyDeleted = 200 ∧
     delStatus .namespaceNotFound ≠ delStatus .keyNotFound ∧
     delStatus .namespaceNotFound ≠ delStatus .keyDeleted ∧
     delStatus .keyNotFound ≠ delStatus .keyDeleted) := by
  refine ⟨?_, ?_, by decide⟩
  · intro h
    simp [del, h]
  · intro w hw ha
    refine ⟨by simp [del, hw, ha], ?_, ?_⟩ <;>
      intro hrow <;> simp [del, hw, ha, hrow]

/-- C6 witness: deleting the present key under the correct write token
reports key-deleted. -/
theorem del_behaviour_witness :
    (del stOneKey "r" "k" (some "w")).1 = DelOutcome.keyDeleted :=
  ((del_behaviour stOneKey "r" "k" "w").2.1 "w" (by decide)
    (by decide)).2.2 (by decide)

/-! ## Inversion of an accepted set -/

lemma resolveTtl_bounds (o : Option Int) :
    MIN_TTL ≤ resolveTtl o ∧ resolveTtl o ≤ MAX_TTL := by
  cases o with
  | none =>
    simp only [resolveTtl]
    unfold MIN_TTL MAX_TTL
    omega
  | some t =>
    simp only [resolveTtl]
    unfold MIN_TTL MAX_TTL
    omega

lemma set_ok_inv (st : State) (rt key : String) (auth : Option String)
    (ct : Option String) (ttlh : Option Int) (body : List Nat)
    (k : String) (c : Option String) (s ca e : Nat)
    (h : (set st rt key auth ct ttlh body).1 = .ok k c s ca e) :
    k = key ∧ c = ct ∧ s = body.length ∧ ca = st.now ∧
      e = st.now + resolveTtl ttlh ∧ body.length ≠ 0 ∧
      body.length ≤ MAX_VALUE_SIZE ∧ key.length ≤ MAX_KEY_SIZE ∧
      liveSize st rt key + body.length ≤ MAX_NAMESPACE_SIZE ∧
      set st rt key auth ct ttlh body =
        (.ok key ct body.length st.now (st.now + resolveTtl ttlh),
         setAccepted st rt key ct ttlh body) := by
  cases auth with
  | none => exact absurd h (by simp [set])
  | some a =>
    by_cases h1 : key.length > MAX_KEY_SIZE
    · exact absurd h (by simp [set, h1])
    · by_cases h2 : body.length = 0
      · exact absurd h (by simp [set, h1, h2])
      · by_cases h3 : body.length > MAX_VALUE_SIZE
        · exact absurd h (by simp [set, h1, h2, h3])
        · cases hw : lookupWriteToken st rt with
          | none => exact absurd h (by simp [set, h1, h2, h3, hw])
          | some w =>
            by_cases h4 : compareSecrets a w = true
            · by_cases h5 :
                  liveSize st rt key + body.length > MAX_NAMESPACE_SIZE
              · exact absurd h (by simp [set, h1, h2, h3, hw, h4, h5])
              · have hset : set st rt key (some a) ct ttlh body =
                    (.ok key ct body.length st.now
                       (st.now + resolveTtl ttlh),
                     setAccepted st rt key ct ttlh body) := by
                  simp [set, h1, h2, h3, hw, h4, h5]
                have hfst : (set st rt key (some a) ct ttlh body).1 =
                    SetOutcome.ok key ct body.length st.now
                      (st.now + resolveTtl ttlh) := by
                  rw [hset]
                have h9 := hfst.symm.trans h
                injection h9 with hk hc hs hca he
                exact ⟨hk.symm, hc.symm, hs.symm, hca.symm, he.symm, h2,
                  le_of_not_lt h3, le_of_not_lt h1, le_of_not_lt h5, hset⟩
            · exact absurd h (by simp [set, h1, h2, h3, hw, h4])

/-- C8: for every accepted set, the returned and stored timestamps
satisfy expiration = created_at + resolveTtl, where resolveTtl is the
clamp of the requested TTL into [MIN_TTL, MAX_TTL] and defaults to
MAX_TTL (10 years) when no TTL is supplied; the resolved TTL always
lies in [MIN_TTL, MAX_TTL], and the freshly stored catalog row carries
exactly these timestamps. -/
theorem set_ttl_resolution (st : State) (rt key : String)
    (auth : Option String) (ct : Option String) (ttlh : Option Int)
    (body : List Nat) (k : String) (c : Option String) (s ca e : Nat)
    (h : (set st rt key auth ct ttlh body).1 = .ok k c s ca e) :
    ca = st.now ∧ e = ca + resolveTtl ttlh ∧
    resolveTtl none = MAX_TTL ∧
    (∀ t : Int, resolveTtl (some t) =
      (max (MIN_TTL : Int) (min t (MAX_TTL : Int))).toNat) ∧
    MIN_TTL ≤ resolveTtl ttlh ∧ resolveTtl ttlh ≤ MAX_TTL ∧
    (∃ r ∈ (set st rt key auth ct ttlh body).2.kv,
       r.namespace_ref = rt ∧ r.key = key ∧ r.created_at = st.now ∧
         r.expiration = st.now + resolveTtl ttlh) := by
  obtain ⟨-, -, -, hca, he, -, -, -, -, hset⟩ :=
    set_ok_inv st rt key auth ct ttlh body k c s ca e h
  subst hca
  refine ⟨rfl, he, rfl, fun t => rfl, (resolveTtl_bounds ttlh).1,
    (resolveTtl_bounds ttlh).2, ?_⟩
  rw [hset]
  refine ⟨newRow st rt key ct ttlh body, ?_, rfl, rfl, rfl, rfl⟩
  have hq : ¬ (st.now + resolveTtl ttlh < st.now) := by omega
  simp only [setAccepted, blobPut]
  rw [List.filter_cons_of_pos (by simp [hq])]
  exact List.mem_cons_self _ _

/-- C8 witness: a concrete accepted set with a requested TTL of 120
seconds stores expiration = created_at + 120. -/
theorem set_ttl_resolution_witness :
    (0 : Nat) = stNs.now ∧ (120 : Nat) = 0 + resolveTtl (some 120) ∧
    resolveTtl none = MAX_TTL ∧
    (∀ t : Int, resolveTtl (some t) =
      (max (MIN_TTL : Int) (min t (MAX_TTL : Int))).toNat) ∧
    MIN_TTL ≤ resolveTtl (some 120) ∧ resolveTtl (some 120) ≤ MAX_TTL ∧
    (∃ r ∈ (set stNs "r" "k" (some "w") none (some 120) [1, 2]).2.kv,
       r.namespace_ref = "r" ∧ r.key = "k" ∧ r.created_at = stNs.now ∧
         r.expiration = stNs.now + resolveTtl (some 120)) :=
  set_ttl_resolution stNs "r" "k" (some "w") none (some 120) [1, 2]
    "k" none 2 0 120 (by decide)

/-- C7 counterexample: a concrete accepted set with TTL 60 stores a
catalog expiration of 60 but a blob record expiring at 65 — the blob
TTL is not the KeyEntry expiration. -/
theorem set_blob_expiry_ne_row_expiration :
    (set stNs "r" "k" (some "w") none (some 60) [1]).1 =
      SetOutcome.ok "k" none 1 0 60 ∧
    blobFind (set stNs "r" "k" (some "w") none (some 60) [1]).2
        (dataKey "r" "k") =
      some { value := [1], content_type := none, expiry := 65 } ∧
    (65 : Nat) ≠ 60 := by
  decide

/-- C7 (amended): for every accepted set, the stored blob record
carries the set body and content type but expires at the KeyEntry
expiration plus 5 seconds (the code passes expirationTtl ttl + 5), not
at the KeyEntry expiration itself. -/
theorem set_blob_ttl_offset (st : State) (rt key : String)
    (auth : Option String) (ct : Option String) (ttlh : Option Int)
    (body : List Nat) (k : String) (c : Option String) (s ca e : Nat)
    (h : (set st rt key auth ct ttlh body).1 = .ok k c s ca e) :
    blobFind (set st rt key auth ct ttlh body).2 (dataKey rt key) =
      some { value := body, content_type := ct, expiry := e + 5 } ∧
    e = st.now + resolveTtl ttlh := by
  obtain ⟨-, -, -, -, he, -, -, -, -, hset⟩ :=
    set_ok_inv st rt key auth ct ttlh body k c s ca e h
  subst he
  refine ⟨?_, rfl⟩
  rw [hset]
  simp only [setAccepted, blobPut, blobFind]
  rw [List.find?_cons_of_pos _ (by simp)]
  rfl

/-- C7 witness for the amended claim: a concrete accepted set with the
default TTL stores a blob record expiring 5 seconds after the KeyEntry
expiration. -/
theorem set_blob_ttl_offset_witness :
    blobFind (set stNs "r" "k" (some "w") none none [1, 2]).2
        (dataKey "r" "k") =
      some { value := [1, 2], content_type := none,
             expiry := 315360000 + 5 } ∧
    (315360000 : Nat) = stNs.now + resolveTtl none :=
  set_blob_ttl_offset stNs "r" "k" (some "w") none none [1, 2]
    "k" none 2 0 315360000 (by decide)

/-- C5: an accepted set followed by a get of the same key at any time
within the TTL window returns exactly the bytes and the content type
that were set. -/
theorem set_get_roundtrip (st : State) (rt key a : String)
    (ct : Option String) (ttlh : Option Int) (body : List Nat)
    (k : String) (c : Option String) (s ca e : Nat) (t : Nat)
    (h : (set st rt key (some a) ct ttlh body).1 = .ok k c s ca e)
    (ht : t < st.now + resolveTtl ttlh) :
    get (atTime (set st rt key (some a) ct ttlh body).2 t) rt key =
      .ok body ct := by
  obtain ⟨-, -, -, -, -, -, -, -, -, hset⟩ :=
    set_ok_inv st rt key (some a) ct ttlh body k c s ca e h
  rw [hset]
  have hb : blobGet (atTime (setAccepted st rt key ct ttlh body) t)
      (dataKey rt key) =
      some { value := body, content_type := ct,
             expiry := st.now + resolveTtl ttlh + 5 } := by
    simp only [blobGet, blobFind, atTime, setAccepted, blobPut]
    rw [List.find?_cons_of_pos _ (by simp)]
    simp only [Option.map_some']
    rw [if_pos (by omega)]
  unfold get
  rw [hb]

/-- C5 witness: a concrete accepted set followed by a get within the
TTL window returns the set bytes and content type. -/
theorem set_get_roundtrip_witness :
    get (atTime (set stNs "r" "k" (some "w") (some "ct") none
        [1, 2, 3]).2 50) "r" "k" = GetResult.ok [1, 2, 3] (some "ct") :=
  set_get_roundtrip stNs "r" "k" "w" (some "ct") none [1, 2, 3]
    "k" (some "ct") 3 0 315360000 50 (by decide) (by decide)

lemma sum_filter_chain (l : List KvRow) (rt key : String) (now : Nat) :
    ((((l.filter (fun r => !(r.namespace_ref == rt && r.key == key))).filter
        (fun r => !(r.namespace_ref == rt && decide (r.expiration < now)))).filter
        (fun r => r.namespace_ref == rt && decide (now < r.expiration))).map
      (fun r => r.size)).sum
      = ((l.filter (fun r => r.namespace_ref == rt && r.key != key
          && decide (now < r.expiration))).map (fun r => r.size)).sum := by
  rw [List.filter_filter, List.filter_filter]
  have hbool : ∀ (b1 b2 b3 b4 : Bool), (b3 = true → b4 = false) →
      (((b1 && b3) && !(b1 && b4)) && !(b1 && b2)) = (b1 && !b2 && b3) := by
    decide
  have hcong : ∀ r ∈ l,
      (((r.namespace_ref == rt && decide (now < r.expiration)) &&
        !(r.namespace_ref == rt && decide (r.expiration < now))) &&
        !(r.namespace_ref == rt && r.key == key))
      = (r.namespace_ref == rt && r.key != key
          && decide (now < r.expiration)) := by
    intro r _
    simp only [bne]
    refine hbool _ _ _ _ (fun h3 => ?_)
    have hlt : now < r.expiration := of_decide_eq_true h3
    exact decide_eq_false (by omega)
  rw [List.filter_congr hcong]

lemma liveSizeTotal_setAccepted (st : State) (rt key : String)
    (ct : Option String) (ttlh : Option Int) (body : List Nat) :
    liveSizeTotal (setAccepted st rt key ct ttlh body) rt
      = body.length + liveSize st rt key := by
  have hq : ¬ (st.now + resolveTtl ttlh < st.now) := by omega
  have hL : st.now < st.now + resolveTtl ttlh := by
    have h60 := (resolveTtl_bounds ttlh).1
    unfold MIN_TTL at h60
    omega
  simp only [liveSizeTotal, setAccepted, blobPut, liveSize]
  rw [List.filter_cons_of_pos (by simp [hq])]
  rw [List.filter_cons_of_pos (by simp [hL])]
  simp only [List.map_cons, List.sum_cons]
  rw [sum_filter_chain]

/-- C3: a set is admitted only when the live size of the namespace
excluding the overwritten key, plus the new body size, does not exceed
the 200 MB quota; and immediately after any accepted set the total live
size of the namespace is within the quota. -/
theorem set_quota (st : State) (rt key : String) (auth : Option String)
    (ct : Option String) (ttlh : Option Int) (body : List Nat)
    (k : String) (c : Option String) (s ca e : Nat)
    (h : (set st rt key auth ct ttlh body).1 = .ok k c s ca e) :
    liveSize st rt key + body.length ≤ MAX_NAMESPACE_SIZE ∧
    liveSizeTotal (set st rt key auth ct ttlh body).2 rt
      ≤ MAX_NAMESPACE_SIZE := by
  obtain ⟨-, -, -, -, -, -, -, -, hq, hset⟩ :=
    set_ok_inv st rt key auth ct ttlh body k c s ca e h
  refine ⟨hq, ?_⟩
  rw [hset]
  show liveSizeTotal (setAccepted st rt key ct ttlh body) rt
    ≤ MAX_NAMESPACE_SIZE
  rw [liveSizeTotal_setAccepted]
  omega

/-- C3 witness: a concrete accepted set leaves the namespace within
quota. -/
theorem set_quota_witness :
    liveSize stNs "r" "k" + [1, 2, 3].length ≤ MAX_NAMESPACE_SIZE ∧
    liveSizeTotal (set stNs "r" "k" (some "w") none none [1, 2, 3]).2 "r"
      ≤ MAX_NAMESPACE_SIZE :=
  set_quota stNs "r" "k" (some "w") none none [1, 2, 3]
    "k" none 3 0 315360000 (by decide)

lemma suffixAny_eq_true (f : List Char → Bool) (t : List Char) :
    suffixAny f t = true ↔ ∃ t1 t2, t1 ++ t2 = t ∧ f t2 = true := by
  induction t with
  | nil =>
    simp only [suffixAny]
    constructor
    · intro h
      exact ⟨[], [], rfl, h⟩
    · rintro ⟨t1, t2, happ, hm⟩
      rcases List.append_eq_nil.mp happ with ⟨h1, h2⟩
      subst h2
      exact hm
  | cons c ts ih =>
    simp only [suffixAny, Bool.or_eq_true, ih]
    constructor
    · rintro (h | ⟨t1, t2, happ, hm⟩)
      · exact ⟨[], c :: ts, rfl, h⟩
      · exact ⟨c :: t1, t2, by rw [List.cons_append, happ], hm⟩
    · rintro ⟨t1, t2, happ, hm⟩
      cases t1 with
      | nil =>
        left
        simp only [List.nil_append] at happ
        exact happ ▸ hm
      | cons d t1 =>
        right
        simp only [List.cons_append, List.cons.injEq] at happ
        exact ⟨t1, t2, happ.2, hm⟩

lemma likeMatch_percent (ps : List Char) (t : List Char) :
    likeMatch ('%' :: ps) t = true ↔
      ∃ t1 t2, t1 ++ t2 = t ∧ likeMatch ps t2 = true := by
  have h : likeMatch ('%' :: ps) t = suffixAny (likeMatch ps) t := by
    simp [likeMatch]
  rw [h, suffixAny_eq_true]

lemma noWild_cons (c : Char) (s : List Char) :
    noWild (c :: s) = true ↔ (¬ c = '%' ∧ ¬ c = '_') ∧ noWild s = true := by
  simp [noWild, List.all_cons, and_assoc]

lemma likeMatch_literal_percent (s : List Char) :
    noWild s = true →
      ∀ t, (likeMatch (s ++ ['%']) t = true ↔ ∃ r2, s ++ r2 = t) := by
  induction s with
  | nil =>
    intro _ t
    simp only [List.nil_append]
    constructor
    · intro _
      exact ⟨t, rfl⟩
    · intro _
      rw [likeMatch_percent]
      refine ⟨t, [], by simp, ?_⟩
      simp [likeMatch]
  | cons c s ih =>
    intro hs t
    obtain ⟨⟨hc1, hc2⟩, hs2⟩ := (noWild_cons c s).mp hs
    cases t with
    | nil =>
      simp [likeMatch, hc1]
    | cons d ts =>
      have hred : likeMatch ((c :: s) ++ ['%']) (d :: ts)
          = ((c == d) && likeMatch (s ++ ['%']) ts) := by
        simp [likeMatch, hc1, hc2]
      rw [hred]
      simp only [Bool.and_eq_true, beq_iff_eq, ih hs2 ts, List.cons_append,
        List.cons.injEq]
      constructor
      · rintro ⟨hcd, r2, hr⟩
        exact ⟨r2, hcd, hr⟩
      · rintro ⟨r2, hcd, hr⟩
        exact ⟨hcd, r2, hr⟩

lemma likeMatch_contains (s t : List Char) (hs : noWild s = true) :
    likeMatch ('%' :: (s ++ ['%'])) t = true ↔ ∃ u v, u ++ (s ++ v) = t := by
  rw [likeMatch_percent]
  constructor
  · rintro ⟨t1, t2, happ, hm⟩
    obtain ⟨r2, hr⟩ := ((likeMatch_literal_percent s hs) t2).mp hm
    refine ⟨t1, r2, ?_⟩
    rw [hr, happ]
  · rintro ⟨u, v, h⟩
    exact ⟨u, s ++ v, h,
      ((likeMatch_literal_percent s hs) (s ++ v)).mpr ⟨v, rfl⟩⟩

/-- C10: on an existing namespace the listing engine returns the page
of at most 1000 rows, ordered by created_at ascending, holding only
non-expired matching rows of the namespace; with no offset and no
truncation it holds exactly the live matching rows; a pattern matched
by no key yields the empty page; and a percent-substr-percent pattern
(substr wildcard-free) matches exactly the keys containing substr. -/
theorem list_like_spec (st : State) (rt p : String) (off : Nat)
    (hns : namespaceExists st rt = true) : ListSpec st rt p off := by
  refine ⟨?_, ?_, ?_, ?_, ?_, ?_, ?_⟩
  · simp [list, hns]
  · unfold listRows
    exact List.length_take_le _ _
  · have hs := List.sorted_insertionSort
      (fun a b : KvRow => a.created_at ≤ b.created_at)
      (rowsLive st rt (some p))
    have hsub : List.Sublist (listRows st rt (some p) off)
        (orderByCreated (rowsLive st rt (some p))) :=
      (List.take_sublist _ _).trans (List.drop_sublist _ _)
    exact List.Pairwise.sublist hsub hs
  · intro r hr
    have h2 := List.take_subset 1000 _ hr
    have h3 := List.drop_subset off _ h2
    have h4 : r ∈ rowsLive st rt (some p) :=
      ((List.perm_insertionSort _ _).mem_iff).mp h3
    simp only [rowsLive, List.mem_filter, Bool.and_eq_true, beq_iff_eq,
      decide_eq_true_eq] at h4
    exact ⟨h4.2.1.1, h4.2.1.2, h4.2.2⟩
  · intro hlen r
    unfold listRows
    rw [List.drop_zero]
    rw [List.take_of_length_le]
    · rw [orderByCreated, (List.perm_insertionSort _ _).mem_iff]
      simp [rowsLive, List.mem_filter, and_assoc]
    · rw [orderByCreated, (List.perm_insertionSort _ _).length_eq]
      exact hlen
  · intro hnone
    unfold listRows
    have h0 : rowsLive st rt (some p) = [] := by
      unfold rowsLive
      rw [List.filter_eq_nil_iff]
      intro r hr
      simp [hnone r hr]
    rw [h0]
    simp [orderByCreated, List.insertionSort]
  · intro s t hsw
    exact likeMatch_contains s t hsw

/-- C10 witness: the listing specification holds at a concrete state
holding a matching live row, a non-matching live row and an expired
row. -/
theorem list_like_spec_witness :
    namespaceExists stList "r" = true ∧ ListSpec stList "r" "%bc%" 0 :=
  ⟨by decide, list_like_spec stList "r" "%bc%" 0 (by decide)⟩

end CloudKV
